import Mathlib

/-! # goexpert-challenge1: quote server and quote client

A shallow embedding of `server/main.go` and `client/main.go`.

Conventions of the embedding.

* Go `string` and `[]byte` values are Lean `String`s (HTTP bodies are text);
  `len` of a Go string is `String.utf8ByteSize`.
* Go `error` values are carried by their `Error()` text.
* Every call that leaves the process (HTTP, SQL driver, clock, identifier
  generator, file system) takes its outcome from an environment record, and
  receives the arguments the source passes to it. A `context.WithTimeout` is
  passed as its timeout in milliseconds, so the outcome of a call may depend
  on the deadline it runs under.
* `encoding/json` is modelled after the standard library: a byte-wise scanner
  that validates the whole input first, then a decoder that stores into the
  destination struct and remembers the first type error.
-/

/-! ## encoding/json -/

namespace Json

/-- Values of the scanner's `parseState` stack. -/
inductive ParseState where
  | objectKey
  | objectValue
  | arrayValue
deriving DecidableEq, Repr

/-- The scanner's current `step` function. -/
inductive Step where
  | beginValueOrEmpty | beginValue | beginStringOrEmpty | beginString
  | endValue | endTop
  | inString | inStringEsc | inStringEscU | inStringEscU1 | inStringEscU12 | inStringEscU123
  | neg | one | zero | dot | dot0 | e | eSign | e0
  | t | tr | tru | f | fa | fal | fals | n | nu | nul
deriving DecidableEq, Repr

/-- What the decoder sees of a scanned document, in document order. -/
inductive Event where
  | beginObject | endObject | beginArray | endArray
  | key (k : String)
  | string (s : String)
  | number | bool | null
deriving DecidableEq, Repr

/-- Errors returned by `Unmarshal`. -/
inductive JsonError where
  /-- A `*json.SyntaxError`: the input is not a JSON document. -/
  | syntaxError
  /-- A `*json.UnmarshalTypeError`: a JSON value of kind `value` met a Go
  destination (`field`) that cannot hold it. -/
  | unmarshalTypeError (value : String) (field : String)
deriving DecidableEq, Repr

def maxNestingDepth : Nat := 10000

def isSpace (c : Char) : Bool :=
  c.toNat ≤ 32 && (c.toNat = 32 || c.toNat = 9 || c.toNat = 13 || c.toNat = 10)

def isDigit (c : Char) : Bool := 48 ≤ c.toNat && c.toNat ≤ 57

def isHex (c : Char) : Bool :=
  isDigit c || (97 ≤ c.toNat && c.toNat ≤ 102) || (65 ≤ c.toNat && c.toNat ≤ 70)

def hexVal (c : Char) : Nat :=
  if isDigit c then c.toNat - 48
  else if 97 ≤ c.toNat && c.toNat ≤ 102 then c.toNat - 97 + 10
  else c.toNat - 65 + 10

def u4 (a b c d : Char) : Option Nat :=
  if isHex a && isHex b && isHex c && isHex d then
    some (hexVal a * 4096 + hexVal b * 256 + hexVal c * 16 + hexVal d)
  else none

def replacementChar : Char := Char.ofNat 0xFFFD

def isSurrogate (r : Nat) : Bool := 0xD800 ≤ r && r < 0xE000

/-- Function `utf16.DecodeRune`: the code point of a surrogate pair, or U+FFFD. -/
def decodeSurrogates (r1 r2 : Nat) : Char :=
  if 0xD800 ≤ r1 && r1 < 0xDC00 && 0xDC00 ≤ r2 && r2 < 0xE000 then
    Char.ofNat ((r1 - 0xD800) * 1024 + (r2 - 0xDC00) + 0x10000)
  else replacementChar

def escapeChar (c : Char) : Char :=
  if c = 'b' then Char.ofNat 8
  else if c = 'f' then Char.ofNat 12
  else if c = 'n' then Char.ofNat 10
  else if c = 'r' then Char.ofNat 13
  else if c = 't' then Char.ofNat 9
  else c

/-- Function `unquoteBytes`, on the text between the quotes of a string literal
the scanner has accepted. -/
def unquote : List Char → List Char
  | [] => []
  | c :: rest =>
    if c = '\\' then
      match rest with
      | [] => []
      | x :: rest1 =>
        if x = 'u' then
          match rest1 with
          | a :: b :: c :: d :: rest2 =>
            match u4 a b c d with
            | none => []
            | some rr =>
              let alone := unquote rest2
              if isSurrogate rr then
                match rest2 with
                | y :: z :: a1 :: b1 :: c1 :: d1 :: rest3 =>
                  match (if y = '\\' && z = 'u' then u4 a1 b1 c1 d1 else none) with
                  | some rr1 =>
                    if decodeSurrogates rr rr1 = replacementChar then replacementChar :: alone
                    else decodeSurrogates rr rr1 :: unquote rest3
                  | none => replacementChar :: alone
                | _ => replacementChar :: alone
              else Char.ofNat rr :: alone
          | _ => []
        else escapeChar x :: unquote rest1
    else c :: unquote rest

/-- The scanner, with the text of the literal being read and the events seen
so far (both most recent first). -/
structure Scanner where
  step : Step
  parseState : List ParseState
  endTop : Bool
  lit : List Char
  events : List Event
deriving Repr

def Scanner.reset : Scanner :=
  { step := .beginValue, parseState := [], endTop := false, lit := [], events := [] }

def Scanner.emit (s : Scanner) (ev : Event) : Scanner :=
  { s with events := ev :: s.events }

/-- Method `pushParseState`: fails beyond the nesting limit. -/
def Scanner.pushParseState (s : Scanner) (p : ParseState) (next : Step) : Option Scanner :=
  if s.parseState.length + 1 ≤ maxNestingDepth then
    some { s with parseState := p :: s.parseState, step := next }
  else none

def Scanner.popParseState (s : Scanner) : Scanner :=
  match s.parseState.tail with
  | [] => { s with parseState := [], step := .endTop, endTop := true }
  | ps => { s with parseState := ps, step := .endValue }

def stateEndTop (s : Scanner) (c : Char) : Option Scanner :=
  if isSpace c then some s else none

def stateEndValue (s : Scanner) (c : Char) : Option Scanner :=
  match s.parseState with
  | [] => stateEndTop { s with step := .endTop, endTop := true } c
  | ps :: rest =>
    if isSpace c then some { s with step := .endValue }
    else
      match ps with
      | .objectKey =>
        if c = ':' then some { s with parseState := .objectValue :: rest, step := .beginValue }
        else none
      | .objectValue =>
        if c = ',' then some { s with parseState := .objectKey :: rest, step := .beginString }
        else if c = '}' then some (s.popParseState.emit .endObject)
        else none
      | .arrayValue =>
        if c = ',' then some { s with step := .beginValue }
        else if c = ']' then some (s.popParseState.emit .endArray)
        else none

def stateBeginValue (s : Scanner) (c : Char) : Option Scanner :=
  if isSpace c then some s
  else if c = '{' then (s.emit .beginObject).pushParseState .objectKey .beginStringOrEmpty
  else if c = '[' then (s.emit .beginArray).pushParseState .arrayValue .beginValueOrEmpty
  else if c = '"' then some { s with step := .inString, lit := [] }
  else if c = '-' then some { s.emit .number with step := .neg }
  else if c = '0' then some { s.emit .number with step := .zero }
  else if c = 't' then some { s.emit .bool with step := .t }
  else if c = 'f' then some { s.emit .bool with step := .f }
  else if c = 'n' then some { s.emit .null with step := .n }
  else if isDigit c then some { s.emit .number with step := .one }
  else none

def stateBeginValueOrEmpty (s : Scanner) (c : Char) : Option Scanner :=
  if isSpace c then some s
  else if c = ']' then stateEndValue s c
  else stateBeginValue s c

def stateBeginString (s : Scanner) (c : Char) : Option Scanner :=
  if isSpace c then some s
  else if c = '"' then some { s with step := .inString, lit := [] }
  else none

def stateBeginStringOrEmpty (s : Scanner) (c : Char) : Option Scanner :=
  if isSpace c then some s
  else if c = '}' then
    stateEndValue { s with parseState := .objectValue :: s.parseState.tail } c
  else stateBeginString s c

/-- The closing quote of a string literal: an object key or a string value. -/
def Scanner.endString (s : Scanner) : Scanner :=
  let text := String.mk (unquote s.lit.reverse)
  let ev := if s.parseState.head? = some .objectKey then Event.key text else Event.string text
  { s.emit ev with step := .endValue, lit := [] }

def stateInString (s : Scanner) (c : Char) : Option Scanner :=
  if c = '"' then some s.endString
  else if c = '\\' then some { s with step := .inStringEsc, lit := c :: s.lit }
  else if c.toNat < 32 then none
  else some { s with lit := c :: s.lit }

def stateInStringEsc (s : Scanner) (c : Char) : Option Scanner :=
  if c = 'b' || c = 'f' || c = 'n' || c = 'r' || c = 't' || c = '\\' || c = '/' || c = '"' then
    some { s with step := .inString, lit := c :: s.lit }
  else if c = 'u' then some { s with step := .inStringEscU, lit := c :: s.lit }
  else none

def stateHex (s : Scanner) (c : Char) (next : Step) : Option Scanner :=
  if isHex c then some { s with step := next, lit := c :: s.lit } else none

def state0 (s : Scanner) (c : Char) : Option Scanner :=
  if c = '.' then some { s with step := .dot }
  else if c = 'e' || c = 'E' then some { s with step := .e }
  else stateEndValue s c

def state1 (s : Scanner) (c : Char) : Option Scanner :=
  if isDigit c then some { s with step := .one } else state0 s c

def stateNeg (s : Scanner) (c : Char) : Option Scanner :=
  if c = '0' then some { s with step := .zero }
  else if isDigit c then some { s with step := .one }
  else none

def stateDot (s : Scanner) (c : Char) : Option Scanner :=
  if isDigit c then some { s with step := .dot0 } else none

def stateDot0 (s : Scanner) (c : Char) : Option Scanner :=
  if isDigit c then some s
  else if c = 'e' || c = 'E' then some { s with step := .e }
  else stateEndValue s c

def stateESign (s : Scanner) (c : Char) : Option Scanner :=
  if isDigit c then some { s with step := .e0 } else none

def stateE (s : Scanner) (c : Char) : Option Scanner :=
  if c = '+' || c = '-' then some { s with step := .eSign } else stateESign s c

def stateE0 (s : Scanner) (c : Char) : Option Scanner :=
  if isDigit c then some s else stateEndValue s c

def stateLetter (s : Scanner) (c want : Char) (next : Step) : Option Scanner :=
  if c = want then some { s with step := next } else none

/-- One call of `s.step(s, c)`; `none` is `scanError`. -/
def Scanner.next (s : Scanner) (c : Char) : Option Scanner :=
  match s.step with
  | .beginValueOrEmpty => stateBeginValueOrEmpty s c
  | .beginValue => stateBeginValue s c
  | .beginStringOrEmpty => stateBeginStringOrEmpty s c
  | .beginString => stateBeginString s c
  | .endValue => stateEndValue s c
  | .endTop => stateEndTop s c
  | .inString => stateInString s c
  | .inStringEsc => stateInStringEsc s c
  | .inStringEscU => stateHex s c .inStringEscU1
  | .inStringEscU1 => stateHex s c .inStringEscU12
  | .inStringEscU12 => stateHex s c .inStringEscU123
  | .inStringEscU123 => stateHex s c .inString
  | .neg => stateNeg s c
  | .one => state1 s c
  | .zero => state0 s c
  | .dot => stateDot s c
  | .dot0 => stateDot0 s c
  | .e => stateE s c
  | .eSign => stateESign s c
  | .e0 => stateE0 s c
  | .t => stateLetter s c 'r' .tr
  | .tr => stateLetter s c 'u' .tru
  | .tru => stateLetter s c 'e' .endValue
  | .f => stateLetter s c 'a' .fa
  | .fa => stateLetter s c 'l' .fal
  | .fal => stateLetter s c 's' .fals
  | .fals => stateLetter s c 'e' .endValue
  | .n => stateLetter s c 'u' .nu
  | .nu => stateLetter s c 'l' .nul
  | .nul => stateLetter s c 'l' .endValue

/-- Method `eof`: the input ended; succeeds when a top-level value is complete. -/
def Scanner.eof (s : Scanner) : Option Scanner :=
  if s.endTop then some s
  else
    match s.next ' ' with
    | some s1 => if s1.endTop then some s1 else none
    | none => none

def scanFrom (s : Scanner) : List Char → Option Scanner
  | [] => s.eof
  | c :: cs =>
    match s.next c with
    | some s1 => scanFrom s1 cs
    | none => none

/-- Function `checkValid`: the events of a well-formed document, `none` on a
syntax error. -/
def checkValid (data : String) : Option (List Event) :=
  (scanFrom Scanner.reset data.data).map (fun s => s.events.reverse)

/-! ### Decoding into a struct of string fields nested in a struct -/

/-- The two struct types of the programs have the same shape: an outer struct
with one struct field, whose fields are all strings. `outer` is the JSON name
of the outer field and `fields` the JSON names of the inner string fields. -/
structure Layout where
  outer : String
  fields : List String

/-- Function `foldRune` as far as names made of ASCII letters can tell: ASCII
letters fold to upper case, and U+017F and U+212A fold to `S` and `K`. -/
def foldRune (c : Char) : Char :=
  if 97 ≤ c.toNat && c.toNat ≤ 122 then Char.ofNat (c.toNat - 32)
  else if c.toNat = 0x17F then 'S'
  else if c.toNat = 0x212A then 'K'
  else c

def foldName (name : String) : List Char := name.data.map foldRune

/-- The field an object key selects: an exact match first, then a match under
case folding. -/
def findField (names : List String) (key : String) : Option String :=
  match names.find? (fun n => n = key) with
  | some n => some n
  | none => names.find? (fun n => foldName n = foldName key)

/-- The Go value the next JSON value is decoded into. -/
inductive Target where
  /-- The outer struct. -/
  | top
  /-- The inner struct. -/
  | inner
  /-- A string field of the inner struct, by its JSON name. -/
  | field (name : String)
  /-- No destination (unknown key, or inside a value that is skipped). -/
  | skip
deriving DecidableEq, Repr

def Target.describe (L : Layout) : Target → String
  | .top => ""
  | .inner => L.outer
  | .field name => L.outer ++ "." ++ name
  | .skip => ""

structure DecodeState where
  /-- Destinations of the containers that are open, innermost first. -/
  containers : List Target
  /-- Destination of the next value. -/
  next : Target
  /-- Assignments to string fields so far, latest first. -/
  vals : List (String × String)
  savedError : Option JsonError
deriving Repr

def DecodeState.init : DecodeState :=
  { containers := [], next := .top, vals := [], savedError := none }

/-- Method `saveError`: only the first error is kept. -/
def DecodeState.saveError (d : DecodeState) (err : JsonError) : DecodeState :=
  match d.savedError with
  | none => { d with savedError := some err }
  | some _ => d

def DecodeState.enter (d : DecodeState) (t : Target) : DecodeState :=
  { d with containers := t :: d.containers, next := .skip }

/-- A JSON value of kind `value` that its destination cannot hold. -/
def DecodeState.mismatch (L : Layout) (d : DecodeState) (value : String) : DecodeState :=
  match d.next with
  | .skip => d
  | t => d.saveError (.unmarshalTypeError value (t.describe L))

def DecodeState.event (L : Layout) (d : DecodeState) : Event → DecodeState
  | .key k =>
    match d.containers.head? with
    | some .top =>
      { d with next := if (findField [L.outer] k).isSome then .inner else .skip }
    | some .inner =>
      { d with next := match findField L.fields k with
                        | some name => .field name
                        | none => .skip }
    | _ => { d with next := .skip }
  | .beginObject =>
    match d.next with
    | .top => d.enter .top
    | .inner => d.enter .inner
    | .field _ => (d.mismatch L "object").enter .skip
    | .skip => d.enter .skip
  | .beginArray => (d.mismatch L "array").enter .skip
  | .endObject => { d with containers := d.containers.tail, next := .skip }
  | .endArray => { d with containers := d.containers.tail, next := .skip }
  | .string s =>
    match d.next with
    | .field name => { d with vals := (name, s) :: d.vals, next := .skip }
    | _ => { d.mismatch L "string" with next := .skip }
  | .number => { d.mismatch L "number" with next := .skip }
  | .bool => { d.mismatch L "bool" with next := .skip }
  | .null => { d with next := .skip }

def decode (L : Layout) (events : List Event) : DecodeState :=
  events.foldl (DecodeState.event L) DecodeState.init

/-- The value of field `name` after decoding, given its value before. -/
def DecodeState.get (d : DecodeState) (name : String) (old : String) : String :=
  (d.vals.lookup name).getD old

end Json

/-! ## net/http -/

namespace Http

/-- A request as built by `http.NewRequestWithContext`: the timeout of its
context in milliseconds, the method and the URL. -/
structure Request where
  timeoutMs : Nat
  method : String
  url : String
deriving DecidableEq, Repr

/-- A response as the programs use it: the status code, and what
`io.ReadAll(res.Body)` returns (the body, or the error of the read). -/
structure Response where
  StatusCode : Nat
  Body : Except String String

def StatusOK : Nat := 200

def StatusInternalServerError : Nat := 500

/-- The `http.ResponseWriter` handed to a handler. Headers set by the handler
are sent with the status line; headers the server adds by itself are not
modelled. -/
structure ResponseWriter where
  /-- The header map `w.Header()`. -/
  header : List (String × String)
  /-- The status code sent, once the header has been written. -/
  status : Option Nat
  /-- The header map as it was sent with the status line. -/
  sent : List (String × String)
  /-- The body written so far. -/
  body : String
deriving DecidableEq, Repr

def ResponseWriter.fresh : ResponseWriter :=
  { header := [], status := none, sent := [], body := "" }

/-- Call `w.Header().Set(key, value)`. -/
def ResponseWriter.Set (w : ResponseWriter) (key value : String) : ResponseWriter :=
  { w with header := (key, value) :: w.header.filter (fun kv => kv.1 ≠ key) }

/-- Call `w.WriteHeader(code)`: the first call sends the status and the headers. -/
def ResponseWriter.WriteHeader (w : ResponseWriter) (code : Nat) : ResponseWriter :=
  match w.status with
  | some _ => w
  | none => { w with status := some code, sent := w.header }

/-- Call `w.Write(data)`: sends status 200 first if no status was sent. -/
def ResponseWriter.Write (w : ResponseWriter) (data : String) : ResponseWriter :=
  let w1 := w.WriteHeader StatusOK
  { w1 with body := w1.body ++ data }

end Http

/-! ## server/main.go -/

namespace Server

/-- The anonymous struct type of the field `ConversionResponse.USDBRL`. -/
structure Quote where
  Code : String
  Codein : String
  Name : String
  High : String
  Low : String
  VarBid : String
  PctChange : String
  Bid : String
  Ask : String
  Timestamp : String
  CreateDate : String
deriving DecidableEq, Repr

structure ConversionResponse where
  USDBRL : Quote
deriving DecidableEq, Repr

/-- The zero value of `var conversion ConversionResponse`. -/
def ConversionResponse.zero : ConversionResponse :=
  { USDBRL := { Code := "", Codein := "", Name := "", High := "", Low := "", VarBid := "",
                PctChange := "", Bid := "", Ask := "", Timestamp := "", CreateDate := "" } }

/-- The `json` tags of `ConversionResponse`. -/
def layout : Json.Layout :=
  { outer := "USDBRL",
    fields := ["code", "codein", "name", "high", "low", "varBid", "pctChange", "bid", "ask",
               "timestamp", "create_date"] }

/-- Call `json.Unmarshal(data, &v)`: the value of `v` afterwards and the error
returned. A syntax error leaves `v` as it was. -/
def Unmarshal (data : String) (v : ConversionResponse) :
    ConversionResponse × Option Json.JsonError :=
  match Json.checkValid data with
  | none => (v, some .syntaxError)
  | some events =>
    let d := Json.decode layout events
    ({ USDBRL :=
        { Code := d.get "code" v.USDBRL.Code
          Codein := d.get "codein" v.USDBRL.Codein
          Name := d.get "name" v.USDBRL.Name
          High := d.get "high" v.USDBRL.High
          Low := d.get "low" v.USDBRL.Low
          VarBid := d.get "varBid" v.USDBRL.VarBid
          PctChange := d.get "pctChange" v.USDBRL.PctChange
          Bid := d.get "bid" v.USDBRL.Bid
          Ask := d.get "ask" v.USDBRL.Ask
          Timestamp := d.get "timestamp" v.USDBRL.Timestamp
          CreateDate := d.get "create_date" v.USDBRL.CreateDate } },
     d.savedError)

/-- Struct `Conversion`; a `time.Time` is an instant on the environment's clock. -/
structure Conversion where
  ID : String
  Code : String
  Codein : String
  Name : String
  High : String
  Low : String
  VarBid : String
  PctChange : String
  Bid : String
  Ask : String
  Timestamp : String
  CreateDate : String
  CreatedAt : Nat
  UpdatedAt : Nat
  DeletedAt : Nat
deriving DecidableEq, Repr

/-- A value bound to a placeholder or stored in a column. -/
inductive SqlValue where
  | text (s : String)
  | datetime (t : Nat)
deriving DecidableEq, Repr

/-- A column of the table created by `setupDatabase`. -/
structure Column where
  name : String
  notNull : Bool
  primaryKey : Bool
deriving DecidableEq, Repr

/-- The columns of `conversions`, from the `CREATE TABLE` statement of
`setupDatabase`. -/
def schema : List Column :=
  [ ⟨"id", false, true⟩, ⟨"code", false, false⟩, ⟨"codein", false, false⟩,
    ⟨"name", false, false⟩, ⟨"high", false, false⟩, ⟨"low", false, false⟩,
    ⟨"var_bid", false, false⟩, ⟨"pct_change", false, false⟩, ⟨"bid", false, false⟩,
    ⟨"ask", false, false⟩, ⟨"timestamp", false, false⟩, ⟨"create_date", false, false⟩,
    ⟨"created_at", true, false⟩, ⟨"updated_at", true, false⟩, ⟨"deleted_at", false, false⟩ ]

/-- A row of `conversions`: every column of the schema with its value, `none`
for NULL. -/
abbrev Row := List (String × Option SqlValue)

def Row.get (row : Row) (column : String) : Option SqlValue :=
  (row.lookup column).join

/-- Calls made on the `database/sql` handle. -/
inductive DbCall where
  | opened | prepare | exec | stmtClose | close
deriving DecidableEq, Repr

/-- The file `./sample.db` as the handler sees it: the rows of `conversions`,
oldest first, and the calls made on the database so far, oldest first. -/
structure Database where
  rows : List Row
  calls : List DbCall
deriving DecidableEq, Repr

def Database.call (db : Database) (c : DbCall) : Database :=
  { db with calls := db.calls ++ [c] }

/-- Everything outside the process that one request of the server meets. -/
structure Env where
  /-- Error of `http.NewRequestWithContext`, if any. -/
  newRequest : Http.Request → Option String
  /-- Result of `http.DefaultClient.Do`, under the deadline of the request. -/
  doRequest : Http.Request → Except String Http.Response
  /-- Text `err.Error()` of an error of `encoding/json`. -/
  jsonErrorText : Json.JsonError → String
  /-- Error of `sql.Open driver dataSource`, if any. -/
  sqlOpen : String → String → Option String
  /-- Result of `uuid.New().String()`. -/
  uuid : String
  /-- Successive readings of `time.Now()` during the request. -/
  now : Nat → Nat
  /-- Error of `db.Prepare query`, if any. -/
  prepare : String → Option String
  /-- Failure of `stmt.ExecContext` under a timeout in milliseconds that is
  not a constraint violation (deadline exceeded, I/O), if any. -/
  execFailure : Nat → List SqlValue → Option String

def NewConversion (env : Env)
    (code codein name high low varBid pctChange bid ask timestamp createDate : String) :
    Conversion :=
  { ID := env.uuid
    Code := code
    Codein := codein
    Name := name
    High := high
    Low := low
    VarBid := varBid
    PctChange := pctChange
    Bid := bid
    Ask := ask
    Timestamp := timestamp
    CreateDate := createDate
    CreatedAt := env.now 0
    UpdatedAt := env.now 1
    DeletedAt := env.now 2 }

def insertQuery : String :=
  "insert into conversions(id, code, codein, name, high, low, var_bid, pct_change, bid, ask, timestamp, create_date, created_at, updated_at) values(?, ?, ?, ?, ?, ?, ?, ?, ?, ?, ?, ?, ?, ?)"

/-- The column list of `insertQuery`. -/
def insertColumns : List String :=
  ["id", "code", "codein", "name", "high", "low", "var_bid", "pct_change", "bid", "ask",
   "timestamp", "create_date", "created_at", "updated_at"]

/-- The row an `INSERT` with this column list and these values makes: a
column that is not listed is NULL. -/
def mkRow (columns : List String) (args : List SqlValue) : Row :=
  schema.map (fun col => (col.name, (columns.zip args).lookup col.name))

/-- The constraint of the schema that `row` would break in `rows`, if any. -/
def constraintViolation (rows : List Row) (row : Row) : Option String :=
  match schema.find? (fun col => col.notNull && (row.get col.name).isNone) with
  | some col => some ("NOT NULL constraint failed: conversions." ++ col.name)
  | none =>
    match schema.find? (fun col => col.primaryKey && (row.get col.name).isSome &&
            rows.any (fun old => old.get col.name = row.get col.name)) with
    | some col => some ("UNIQUE constraint failed: conversions." ++ col.name)
    | none => none

/-- Call `stmt.ExecContext(ctx, args...)` on the prepared insert. -/
def ExecContext (env : Env) (db : Database) (timeoutMs : Nat) (args : List SqlValue) :
    Option String × Database :=
  let db1 := db.call .exec
  if args.length ≠ insertColumns.length then
    (some ("sql: expected " ++ toString insertColumns.length ++ " arguments, got " ++
      toString args.length), db1)
  else
    match env.execFailure timeoutMs args with
    | some err => (some err, db1)
    | none =>
      let row := mkRow insertColumns args
      match constraintViolation db1.rows row with
      | some err => (some err, db1)
      | none => (none, { db1 with rows := db1.rows ++ [row] })

/-- The values `insertConversion` binds to the placeholders, in order. -/
def insertArgs (conversion : Conversion) : List SqlValue :=
  [ .text conversion.ID, .text conversion.Code, .text conversion.Codein,
    .text conversion.Name, .text conversion.High, .text conversion.Low,
    .text conversion.VarBid, .text conversion.PctChange, .text conversion.Bid,
    .text conversion.Ask, .text conversion.Timestamp, .text conversion.CreateDate,
    .datetime conversion.CreatedAt, .datetime conversion.UpdatedAt ]

def insertConversion (env : Env) (db : Database) (conversion : Conversion) :
    Option String × Database :=
  let db1 := db.call .prepare
  match env.prepare insertQuery with
  | some err => (some err, db1)
  | none =>
    let r := ExecContext env db1 10 (insertArgs conversion)
    (r.1, r.2.call .stmtClose)

/-- The error path of the handler: status 500 and the text of the error. -/
def writeError (w : Http.ResponseWriter) (err : String) : Http.ResponseWriter :=
  (w.WriteHeader Http.StatusInternalServerError).Write err

def upstreamRequest : Http.Request :=
  { timeoutMs := 200, method := "GET",
    url := "https://economia.awesomeapi.com.br/json/last/USD-BRL" }

/-- Function `handleConversion`; the incoming request is not read by the handler. -/
def handleConversion (env : Env) (db : Database) (w : Http.ResponseWriter) :
    Http.ResponseWriter × Database :=
  match env.newRequest upstreamRequest with
  | some err => (writeError w err, db)
  | none =>
    match env.doRequest upstreamRequest with
    | .error err => (writeError w err, db)
    | .ok res =>
      match res.Body with
      | .error err => (writeError w err, db)
      | .ok body =>
        match Unmarshal body ConversionResponse.zero with
        | (_, some err) => (writeError w (env.jsonErrorText err), db)
        | (conversion, none) =>
          match env.sqlOpen "sqlite3" "./sample.db" with
          | some err => (writeError w err, db)
          | none =>
            let db1 := db.call .opened
            let dbConversion := NewConversion env
              conversion.USDBRL.Code conversion.USDBRL.Codein conversion.USDBRL.Name
              conversion.USDBRL.High conversion.USDBRL.Low conversion.USDBRL.VarBid
              conversion.USDBRL.PctChange conversion.USDBRL.Bid conversion.USDBRL.Ask
              conversion.USDBRL.Timestamp conversion.USDBRL.CreateDate
            match insertConversion env db1 dbConversion with
            | (some err, db2) => (writeError w err, db2.call .close)
            | (none, db2) =>
              (((w.Set "Content-Type" "application/json").WriteHeader Http.StatusOK).Write body,
               db2.call .close)

/-! ### Vocabulary of the statements about the server -/

/-- The `Conversion` the handler builds from a decoded quote. -/
def conversionOf (env : Env) (q : Quote) : Conversion :=
  NewConversion env q.Code q.Codein q.Name q.High q.Low q.VarBid q.PctChange q.Bid q.Ask
    q.Timestamp q.CreateDate

/-- The ways a stage of `handleConversion` fails with error text `e`. -/
inductive StageFailure (env : Env) (db : Database) : String → Prop where
  /-- Building the upstream request fails. -/
  | buildRequest {e : String} :
      env.newRequest upstreamRequest = some e → StageFailure env db e
  /-- The upstream call fails, its 200ms deadline included. -/
  | upstreamCall {e : String} :
      env.newRequest upstreamRequest = none →
      env.doRequest upstreamRequest = .error e → StageFailure env db e
  /-- Reading the body fails. -/
  | readBody {e : String} {res : Http.Response} :
      env.newRequest upstreamRequest = none →
      env.doRequest upstreamRequest = .ok res →
      res.Body = .error e → StageFailure env db e
  /-- Decoding the JSON fails. -/
  | decodeJson {res : Http.Response} {body : String} {err : Json.JsonError} :
      env.newRequest upstreamRequest = none →
      env.doRequest upstreamRequest = .ok res →
      res.Body = .ok body →
      (Unmarshal body ConversionResponse.zero).2 = some err →
      StageFailure env db (env.jsonErrorText err)
  /-- Opening the database fails. -/
  | openDatabase {e : String} {res : Http.Response} {body : String} :
      env.newRequest upstreamRequest = none →
      env.doRequest upstreamRequest = .ok res →
      res.Body = .ok body →
      (Unmarshal body ConversionResponse.zero).2 = none →
      env.sqlOpen "sqlite3" "./sample.db" = some e → StageFailure env db e
  /-- The call of `insertConversion` fails, its 10ms deadline included, after
  the quote was fetched and decoded. -/
  | insert {e : String} {res : Http.Response} {body : String} :
      env.newRequest upstreamRequest = none →
      env.doRequest upstreamRequest = .ok res →
      res.Body = .ok body →
      (Unmarshal body ConversionResponse.zero).2 = none →
      env.sqlOpen "sqlite3" "./sample.db" = none →
      (insertConversion env (db.call .opened)
        (conversionOf env (Unmarshal body ConversionResponse.zero).1.USDBRL)).1 = some e →
      StageFailure env db e

/-- The fetch did not deliver a decoded quote: the upstream call failed (its
deadline included), the body could not be read, or it did not decode. -/
def FetchFailure (env : Env) : Prop :=
  (∃ e, env.doRequest upstreamRequest = .error e) ∨
  (∃ res e, env.doRequest upstreamRequest = .ok res ∧ res.Body = .error e) ∨
  (∃ res body err, env.doRequest upstreamRequest = .ok res ∧ res.Body = .ok body ∧
    (Unmarshal body ConversionResponse.zero).2 = some err)

/-- The fetch delivered a decoded quote. -/
def FetchSuccess (env : Env) : Prop :=
  ∃ res body, env.doRequest upstreamRequest = .ok res ∧ res.Body = .ok body ∧
    (Unmarshal body ConversionResponse.zero).2 = none

/-! ### Sample environments -/

/-- An environment in which the upstream answers `status` with `body` and
every other call succeeds. -/
def Env.answering (status : Nat) (body : String) : Env :=
  { newRequest := fun _ => none
    doRequest := fun _ => .ok { StatusCode := status, Body := .ok body }
    jsonErrorText := fun
      | .syntaxError => "json: syntax error"
      | .unmarshalTypeError value field =>
        "json: cannot unmarshal " ++ value ++ " into Go struct field " ++ field
    sqlOpen := fun _ _ => none
    uuid := "3f0c8a52-6d1e-4b7a-9c55-0a1b2c3d4e5f"
    now := fun k => 1700000000 + k
    prepare := fun _ => none
    execFailure := fun _ _ => none }

/-- A quote as the upstream serves it. -/
def quoteBody : String :=
  "\x7b\"USDBRL\":\x7b\"code\":\"USD\",\"codein\":\"BRL\",\"name\":\"Dólar Americano/Real Brasileiro\",\"high\":\"5.45\",\"low\":\"5.40\",\"varBid\":\"0.01\",\"pctChange\":\"0.18\",\"bid\":\"5.43\",\"ask\":\"5.44\",\"timestamp\":\"1700000000\",\"create_date\":\"2023-11-14 19:13:20\"\x7d\x7d"

/-- The body the upstream serves with status 404 for an unknown currency pair. -/
def notFoundBody : String :=
  "\x7b\"status\":404,\"code\":\"CoinNotExists\",\"message\":\"moeda nao encontrada USD-BRL\"\x7d"

def emptyDatabase : Database := { rows := [], calls := [] }

/-- The environment `env`, but with the upstream answering with status `status`. -/
def Env.withStatus (env : Env) (status : Nat) : Env :=
  { env with
    doRequest := fun req =>
      match env.doRequest req with
      | .ok res => .ok { res with StatusCode := status }
      | .error err => .error err }

/-- An upstream that needs `latencyMs` milliseconds to answer `quoteBody`: a
request with a shorter deadline ends in the error of the deadline. -/
def Env.slowUpstream (latencyMs : Nat) : Env :=
  { Env.answering 200 quoteBody with
    doRequest := fun req =>
      if latencyMs ≤ req.timeoutMs then .ok { StatusCode := 200, Body := .ok quoteBody }
      else .error ("Get \"" ++ req.url ++ "\": context deadline exceeded") }

/-- A database that needs `latencyMs` milliseconds to execute a statement,
behind an upstream that answers `quoteBody` at once. -/
def Env.slowDatabase (latencyMs : Nat) : Env :=
  { Env.answering 200 quoteBody with
    execFailure := fun timeoutMs _ =>
      if latencyMs ≤ timeoutMs then none else some "context deadline exceeded" }

end Server

/-! ## client/main.go -/

namespace Client

/-- The anonymous struct type of the field `ConversionResponse.USDBRL`. -/
structure Quote where
  Bid : String
deriving DecidableEq, Repr

structure ConversionResponse where
  USDBRL : Quote
deriving DecidableEq, Repr

def ConversionResponse.zero : ConversionResponse := { USDBRL := { Bid := "" } }

def layout : Json.Layout := { outer := "USDBRL", fields := ["bid"] }

/-- Call `json.Unmarshal(data, &v)`: the value of `v` afterwards and the error
returned. A syntax error leaves `v` as it was. -/
def Unmarshal (data : String) (v : ConversionResponse) :
    ConversionResponse × Option Json.JsonError :=
  match Json.checkValid data with
  | none => (v, some .syntaxError)
  | some events =>
    let d := Json.decode layout events
    ({ USDBRL := { Bid := d.get "bid" v.USDBRL.Bid } }, d.savedError)

/-- Calls made on the file system. -/
inductive FsCall where
  | create (name : String)
  | writeString (name : String) (s : String)
  | close (name : String)
deriving DecidableEq, Repr

/-- The working directory: the content of each file that exists, and the
calls made so far, oldest first. -/
structure FileSystem where
  files : String → Option String
  calls : List FsCall

def FileSystem.call (fs : FileSystem) (c : FsCall) : FileSystem :=
  { fs with calls := fs.calls ++ [c] }

def FileSystem.put (fs : FileSystem) (name content : String) : FileSystem :=
  { fs with files := fun n => if n = name then some content else fs.files n }

/-- Everything outside the process that one run of the client meets. -/
structure Env where
  /-- Error of `http.NewRequestWithContext`, if any. -/
  newRequest : Http.Request → Option String
  /-- Result of `http.DefaultClient.Do`, under the deadline of the request. -/
  doRequest : Http.Request → Except String Http.Response
  /-- Error of `os.Create name`, if any. -/
  create : String → Option String
  /-- Failure of `f.WriteString s` on the file `name`, if any: the part of `s`
  that reached the file and the error. -/
  writeFailure : String → String → Option (String × String)

/-- Call `os.Create(name)`: creates the file, or truncates it. -/
def Create (env : Env) (fs : FileSystem) (name : String) : Option String × FileSystem :=
  let fs1 := fs.call (.create name)
  match env.create name with
  | some err => (some err, fs1)
  | none => (none, fs1.put name "")

/-- Call `f.WriteString(s)` on the file just created: the count of bytes
written, the error, and the file system afterwards. -/
def WriteString (env : Env) (fs : FileSystem) (name s : String) :
    Nat × Option String × FileSystem :=
  let fs1 := fs.call (.writeString name s)
  let old := (fs1.files name).getD ""
  match env.writeFailure name s with
  | some (written, err) => (written.utf8ByteSize, some err, fs1.put name (old ++ written))
  | none => (s.utf8ByteSize, none, fs1.put name (old ++ s))

/-- How the process ends. -/
inductive Exit where
  /-- Function `log.Fatal`: the message is logged and the process exits with status 1. -/
  | fatal (msg : String)
  | panic (msg : String)
  /-- Function `main` returned. -/
  | returned
deriving DecidableEq, Repr

structure Outcome where
  exit : Exit
  stdout : String
  fs : FileSystem

def serverRequest : Http.Request :=
  { timeoutMs := 300, method := "GET", url := "http://localhost:8080/cotacao" }

def main (env : Env) (fs : FileSystem) : Outcome :=
  match env.newRequest serverRequest with
  | some err => ⟨.fatal err, "", fs⟩
  | none =>
    match env.doRequest serverRequest with
    | .error err => ⟨.fatal err, "", fs⟩
    | .ok res =>
      if res.StatusCode ≠ Http.StatusOK then ⟨.fatal "Request failed", "", fs⟩
      else
        match res.Body with
        | .error err => ⟨.fatal err, "", fs⟩
        | .ok body =>
          let conversionResponse := (Unmarshal body ConversionResponse.zero).1
          match Create env fs "cotacao.txt" with
          | (some err, fs1) => ⟨.fatal err, "", fs1⟩
          | (none, fs1) =>
            match WriteString env fs1 "cotacao.txt" ("Dólar: " ++ conversionResponse.USDBRL.Bid) with
            | (_, some err, fs2) => ⟨.panic err, "", fs2⟩
            | (tamanho, none, fs2) =>
              ⟨.returned,
               "Arquivo criado com sucesso! Tamanho: " ++ toString tamanho ++ " bytes\n",
               fs2.call (.close "cotacao.txt")⟩

/-! ### Vocabulary of the statements about the client -/

/-- The run ends before the body is decoded: the request fails (its 300ms
deadline included), the status is not 200, or the body cannot be read. -/
def RequestFailure (env : Env) : Prop :=
  (∃ e, env.doRequest serverRequest = .error e) ∨
  (∃ res, env.doRequest serverRequest = .ok res ∧ res.StatusCode ≠ 200) ∨
  (∃ res e, env.doRequest serverRequest = .ok res ∧ res.Body = .error e)

def successLine (tamanho : Nat) : String :=
  "Arquivo criado com sucesso! Tamanho: " ++ toString tamanho ++ " bytes\n"

/-! ### Sample environments -/

/-- An environment in which the server answers `status` with `body` and the
file system accepts every call. -/
def Env.answering (status : Nat) (body : String) : Env :=
  { newRequest := fun _ => none
    doRequest := fun _ => .ok { StatusCode := status, Body := .ok body }
    create := fun _ => none
    writeFailure := fun _ _ => none }

/-- A response body that carries only a bid. -/
def bidBody : String := "\x7b\"USDBRL\":\x7b\"bid\":\"5.43\"\x7d\x7d"

/-- A directory in which `cotacao.txt` holds an older quote. -/
def oldDirectory : FileSystem :=
  { files := fun n => if n = "cotacao.txt" then some "Dólar: 4.99" else none, calls := [] }

/-- A server that needs `latencyMs` milliseconds to answer `bidBody`: a
request with a shorter deadline ends in the error of the deadline. -/
def Env.slowServer (latencyMs : Nat) : Env :=
  { Env.answering 200 bidBody with
    doRequest := fun req =>
      if latencyMs ≤ req.timeoutMs then .ok { StatusCode := 200, Body := .ok bidBody }
      else .error ("Get \"" ++ req.url ++ "\": context deadline exceeded") }

end Client

/-! ## Properties of the server -/

namespace Server

theorem writeError_fresh (err : String) :
    writeError Http.ResponseWriter.fresh err =
      { header := [], status := some 500, sent := [], body := err } := by
  simp [writeError, Http.ResponseWriter.Write, Http.ResponseWriter.WriteHeader,
    Http.ResponseWriter.fresh, Http.StatusInternalServerError]

theorem writeOk_fresh (body : String) :
    ((Http.ResponseWriter.fresh.Set "Content-Type" "application/json").WriteHeader
        Http.StatusOK).Write body =
      { header := [("Content-Type", "application/json")], status := some 200,
        sent := [("Content-Type", "application/json")], body := body } := by
  simp [Http.ResponseWriter.Write, Http.ResponseWriter.WriteHeader, Http.ResponseWriter.Set,
    Http.ResponseWriter.fresh, Http.StatusOK]

/-- The handler once the quote has been fetched and decoded and the database
opened. -/
theorem handleConversion_decoded (env : Env) (db : Database) (res : Http.Response)
    (body : String) (conversion : ConversionResponse)
    (hreq : env.newRequest upstreamRequest = none)
    (hdo : env.doRequest upstreamRequest = .ok res)
    (hread : res.Body = .ok body)
    (hjson : Unmarshal body ConversionResponse.zero = (conversion, none))
    (hopen : env.sqlOpen "sqlite3" "./sample.db" = none) :
    handleConversion env db Http.ResponseWriter.fresh =
      match insertConversion env (db.call .opened) (conversionOf env conversion.USDBRL) with
      | (some err, db2) => (writeError Http.ResponseWriter.fresh err, db2.call .close)
      | (none, db2) =>
        (((Http.ResponseWriter.fresh.Set "Content-Type" "application/json").WriteHeader
            Http.StatusOK).Write body, db2.call .close) := by
  simp only [handleConversion, hreq, hdo, hread, hjson, hopen, conversionOf]

/-- Either the handler answers with an error before it touches the database,
or the quote was fetched and decoded and the database opened. -/
theorem handleConversion_split (env : Env) (db : Database) :
    (∃ e, handleConversion env db Http.ResponseWriter.fresh =
        (writeError Http.ResponseWriter.fresh e, db)) ∨
    (∃ res body conversion,
      env.newRequest upstreamRequest = none ∧
      env.doRequest upstreamRequest = .ok res ∧
      res.Body = .ok body ∧
      Unmarshal body ConversionResponse.zero = (conversion, none) ∧
      env.sqlOpen "sqlite3" "./sample.db" = none) := by
  cases hreq : env.newRequest upstreamRequest with
  | some e => exact Or.inl ⟨e, by simp only [handleConversion, hreq]⟩
  | none =>
    cases hdo : env.doRequest upstreamRequest with
    | error e => exact Or.inl ⟨e, by simp only [handleConversion, hreq, hdo]⟩
    | ok res =>
      cases hread : res.Body with
      | error e => exact Or.inl ⟨e, by simp only [handleConversion, hreq, hdo, hread]⟩
      | ok body =>
        rcases hU : Unmarshal body ConversionResponse.zero with ⟨conversion, jerr⟩
        cases jerr with
        | some err =>
          exact Or.inl ⟨env.jsonErrorText err,
            by simp only [handleConversion, hreq, hdo, hread, hU]⟩
        | none =>
          cases hopen : env.sqlOpen "sqlite3" "./sample.db" with
          | some e =>
            exact Or.inl ⟨e, by simp only [handleConversion, hreq, hdo, hread, hU, hopen]⟩
          | none => exact Or.inr ⟨res, body, conversion, rfl, rfl, hread, hU, rfl⟩

/-- The three ways `insertConversion` ends: the prepare fails, the execution
fails, or one row is appended. -/
theorem insertConversion_cases (env : Env) (db : Database) (c : Conversion) :
    (∃ e, insertConversion env db c =
      (some e, { rows := db.rows, calls := db.calls ++ [.prepare] })) ∨
    (∃ e, insertConversion env db c =
      (some e, { rows := db.rows, calls := db.calls ++ [.prepare, .exec, .stmtClose] })) ∨
    (insertConversion env db c =
      (none, { rows := db.rows ++ [mkRow insertColumns (insertArgs c)],
               calls := db.calls ++ [.prepare, .exec, .stmtClose] }) ∧
      constraintViolation db.rows (mkRow insertColumns (insertArgs c)) = none) := by
  have hlen : (insertArgs c).length = insertColumns.length := rfl
  cases hprep : env.prepare insertQuery with
  | some e =>
    refine Or.inl ⟨e, ?_⟩
    simp only [insertConversion, hprep, Database.call]
  | none =>
    cases hexec : env.execFailure 10 (insertArgs c) with
    | some e =>
      refine Or.inr (Or.inl ⟨e, ?_⟩)
      simp [insertConversion, hprep, ExecContext, hexec, Database.call, hlen]
    | none =>
      cases hcv : constraintViolation db.rows (mkRow insertColumns (insertArgs c)) with
      | some e =>
        refine Or.inr (Or.inl ⟨e, ?_⟩)
        simp [insertConversion, hprep, ExecContext, hexec, Database.call, hlen, hcv]
      | none =>
        refine Or.inr (Or.inr ⟨?_, rfl⟩)
        simp [insertConversion, hprep, ExecContext, hexec, Database.call, hlen, hcv]

/-- A row that breaks no constraint has an id no older row has. -/
theorem constraintViolation_none_id (rows : List Row) (row : Row)
    (h : constraintViolation rows row = none) (hid : (row.get "id").isSome = true) :
    ∀ old ∈ rows, old.get "id" ≠ row.get "id" := by
  intro old hold heq
  unfold constraintViolation at h
  split at h
  · exact Option.noConfusion h
  · split at h
    · exact Option.noConfusion h
    · rename_i hpk
      have hmem : (⟨"id", false, true⟩ : Column) ∈ schema := by decide
      have := List.find?_eq_none.mp hpk _ hmem
      simp only [Bool.true_and, hid, Bool.and_eq_true, List.any_eq_true, decide_eq_true_eq,
        true_and, not_exists, not_and] at this
      exact this old hold heq

/-- The columns of the row `insertConversion` makes from a `Conversion`. -/
theorem mkRow_columns (c : Conversion) :
    (mkRow insertColumns (insertArgs c)).get "id" = some (.text c.ID) ∧
    (mkRow insertColumns (insertArgs c)).get "code" = some (.text c.Code) ∧
    (mkRow insertColumns (insertArgs c)).get "codein" = some (.text c.Codein) ∧
    (mkRow insertColumns (insertArgs c)).get "name" = some (.text c.Name) ∧
    (mkRow insertColumns (insertArgs c)).get "high" = some (.text c.High) ∧
    (mkRow insertColumns (insertArgs c)).get "low" = some (.text c.Low) ∧
    (mkRow insertColumns (insertArgs c)).get "var_bid" = some (.text c.VarBid) ∧
    (mkRow insertColumns (insertArgs c)).get "pct_change" = some (.text c.PctChange) ∧
    (mkRow insertColumns (insertArgs c)).get "bid" = some (.text c.Bid) ∧
    (mkRow insertColumns (insertArgs c)).get "ask" = some (.text c.Ask) ∧
    (mkRow insertColumns (insertArgs c)).get "timestamp" = some (.text c.Timestamp) ∧
    (mkRow insertColumns (insertArgs c)).get "create_date" = some (.text c.CreateDate) ∧
    (mkRow insertColumns (insertArgs c)).get "created_at" = some (.datetime c.CreatedAt) ∧
    (mkRow insertColumns (insertArgs c)).get "updated_at" = some (.datetime c.UpdatedAt) ∧
    (mkRow insertColumns (insertArgs c)).get "deleted_at" = none := by
  refine ⟨?_, ?_, ?_, ?_, ?_, ?_, ?_, ?_, ?_, ?_, ?_, ?_, ?_, ?_, ?_⟩ <;> rfl

/-- The calls the handler adds to the log of the database: none, or one use
of `insertConversion` between open and close. -/
theorem handleConversion_calls (env : Env) (db : Database) :
    (handleConversion env db Http.ResponseWriter.fresh).2 = db ∨
    (handleConversion env db Http.ResponseWriter.fresh).2.calls =
      db.calls ++ [.opened, .prepare, .close] ∨
    (handleConversion env db Http.ResponseWriter.fresh).2.calls =
      db.calls ++ [.opened, .prepare, .exec, .stmtClose, .close] := by
  rcases handleConversion_split env db with ⟨e, he⟩ | ⟨res, body, conversion, h1, h2, h3, h4, h5⟩
  · exact Or.inl (by rw [he])
  · rw [handleConversion_decoded env db res body conversion h1 h2 h3 h4 h5]
    rcases insertConversion_cases env (db.call .opened) (conversionOf env conversion.USDBRL)
      with ⟨e, he⟩ | ⟨e, he⟩ | ⟨he, _⟩
    · exact Or.inr (Or.inl (by rw [he]; simp [Database.call]))
    · exact Or.inr (Or.inr (by rw [he]; simp [Database.call]))
    · exact Or.inr (Or.inr (by rw [he]; simp [Database.call]))

/-- C1: when every stage of `handleConversion` succeeds (request built, upstream
call, body read, JSON decoded, database opened, row inserted), the response has
status 200, the header `Content-Type: application/json`, and as body the
upstream body exactly as it was read. -/
theorem handleConversion_success_response (env : Env) (db : Database) (res : Http.Response)
    (body : String)
    (hreq : env.newRequest upstreamRequest = none)
    (hdo : env.doRequest upstreamRequest = .ok res)
    (hread : res.Body = .ok body)
    (hjson : (Unmarshal body ConversionResponse.zero).2 = none)
    (hopen : env.sqlOpen "sqlite3" "./sample.db" = none)
    (hins : (insertConversion env (db.call .opened)
      (conversionOf env (Unmarshal body ConversionResponse.zero).1.USDBRL)).1 = none) :
    (handleConversion env db Http.ResponseWriter.fresh).1.status = some 200 ∧
    (handleConversion env db Http.ResponseWriter.fresh).1.sent.lookup "Content-Type" =
      some "application/json" ∧
    (handleConversion env db Http.ResponseWriter.fresh).1.body = body := by
  rcases hU : Unmarshal body ConversionResponse.zero with ⟨conversion, jerr⟩
  rw [hU] at hjson hins
  simp only at hjson hins
  subst hjson
  rw [handleConversion_decoded env db res body conversion hreq hdo hread hU hopen]
  rcases hI : insertConversion env (db.call .opened) (conversionOf env conversion.USDBRL)
    with ⟨ierr, db2⟩
  rw [hI] at hins
  simp only at hins
  subst hins
  simp only [writeOk_fresh]
  exact ⟨trivial, by decide, trivial⟩

/-- C1 at a concrete request: the upstream serves `quoteBody` with status 200
and every call succeeds. -/
theorem handleConversion_success_response_witness :
    (Unmarshal quoteBody ConversionResponse.zero).2 = none ∧
    (insertConversion (Env.answering 200 quoteBody) (emptyDatabase.call .opened)
      (conversionOf (Env.answering 200 quoteBody)
        (Unmarshal quoteBody ConversionResponse.zero).1.USDBRL)).1 = none ∧
    (handleConversion (Env.answering 200 quoteBody) emptyDatabase
      Http.ResponseWriter.fresh).1.status = some 200 ∧
    (handleConversion (Env.answering 200 quoteBody) emptyDatabase
      Http.ResponseWriter.fresh).1.sent.lookup "Content-Type" = some "application/json" ∧
    (handleConversion (Env.answering 200 quoteBody) emptyDatabase
      Http.ResponseWriter.fresh).1.body = quoteBody :=
  ⟨by decide, by decide,
   handleConversion_success_response (Env.answering 200 quoteBody) emptyDatabase
     { StatusCode := 200, Body := .ok quoteBody } quoteBody rfl rfl rfl (by decide) rfl
     (by decide)⟩

/-- C2: when a stage of `handleConversion` fails (building the request, the
upstream call, reading the body, decoding, opening the database, or
`insertConversion`), the response has status 500 and its body is the text of
that stage's error; a failed insert after a decoded quote is among the cases. -/
theorem handleConversion_failure_response (env : Env) (db : Database) (e : String)
    (h : StageFailure env db e) :
    (handleConversion env db Http.ResponseWriter.fresh).1.status = some 500 ∧
    (handleConversion env db Http.ResponseWriter.fresh).1.body = e := by
  cases h with
  | buildRequest hreq =>
    simp only [handleConversion, hreq, writeError_fresh, and_self]
  | upstreamCall hreq hdo =>
    simp only [handleConversion, hreq, hdo, writeError_fresh, and_self]
  | readBody hreq hdo hread =>
    simp only [handleConversion, hreq, hdo, hread, writeError_fresh, and_self]
  | decodeJson hreq hdo hread hjson =>
    rename_i res body err
    rcases hU : Unmarshal body ConversionResponse.zero with ⟨conversion, jerr⟩
    rw [hU] at hjson
    simp only at hjson
    subst hjson
    simp only [handleConversion, hreq, hdo, hread, hU, writeError_fresh, and_self]
  | openDatabase hreq hdo hread hjson hopen =>
    rename_i res body
    rcases hU : Unmarshal body ConversionResponse.zero with ⟨conversion, jerr⟩
    rw [hU] at hjson
    simp only at hjson
    subst hjson
    simp only [handleConversion, hreq, hdo, hread, hU, hopen, writeError_fresh, and_self]
  | insert hreq hdo hread hjson hopen hins =>
    rename_i res body
    rcases hU : Unmarshal body ConversionResponse.zero with ⟨conversion, jerr⟩
    rw [hU] at hjson hins
    simp only at hjson hins
    subst hjson
    rw [handleConversion_decoded env db res body conversion hreq hdo hread hU hopen]
    rcases hI : insertConversion env (db.call .opened) (conversionOf env conversion.USDBRL)
      with ⟨ierr, db2⟩
    rw [hI] at hins
    simp only at hins
    subst hins
    simp only [writeError_fresh, and_self]

/-- C2 at a concrete request: the quote is fetched and decoded, and the insert,
on a database that needs 15ms, runs into its deadline of 10ms. -/
theorem handleConversion_failure_response_witness :
    StageFailure (Env.slowDatabase 15) emptyDatabase "context deadline exceeded" ∧
    (handleConversion (Env.slowDatabase 15) emptyDatabase Http.ResponseWriter.fresh).1.status =
      some 500 ∧
    (handleConversion (Env.slowDatabase 15) emptyDatabase Http.ResponseWriter.fresh).1.body =
      "context deadline exceeded" :=
  have h : StageFailure (Env.slowDatabase 15) emptyDatabase "context deadline exceeded" :=
    @StageFailure.insert (Env.slowDatabase 15) emptyDatabase "context deadline exceeded"
      { StatusCode := 200, Body := .ok quoteBody } quoteBody rfl rfl rfl (by decide) rfl
      (by decide)
  ⟨h, handleConversion_failure_response (Env.slowDatabase 15) emptyDatabase _ h⟩

/-- The handler does not read the status of the upstream response. -/
theorem handleConversion_ignores_status (env : Env) (db : Database) (status : Nat) :
    handleConversion (env.withStatus status) db Http.ResponseWriter.fresh =
      handleConversion env db Http.ResponseWriter.fresh := by
  cases hreq : env.newRequest upstreamRequest with
  | some e => simp only [handleConversion, Env.withStatus, hreq]
  | none =>
    cases hdo : env.doRequest upstreamRequest with
    | error e => simp only [handleConversion, Env.withStatus, hreq, hdo]
    | ok res =>
      simp only [handleConversion, Env.withStatus, hreq, hdo, NewConversion, insertConversion,
        ExecContext]

/-- C3, the code at an upstream answer with status 404 and a JSON error body:
the handler does not look at the status; the body decodes (to empty fields), a
row of empty strings is inserted and the response is 200 with the error body. -/
theorem handleConversion_upstream_404 :
    (Env.answering 404 notFoundBody).doRequest upstreamRequest =
      .ok { StatusCode := 404, Body := .ok notFoundBody } ∧
    (handleConversion (Env.answering 404 notFoundBody) emptyDatabase
      Http.ResponseWriter.fresh).1.status = some 200 ∧
    (handleConversion (Env.answering 404 notFoundBody) emptyDatabase
      Http.ResponseWriter.fresh).1.body = notFoundBody ∧
    (handleConversion (Env.answering 404 notFoundBody) emptyDatabase
      Http.ResponseWriter.fresh).2.rows =
      [mkRow insertColumns (insertArgs
        (conversionOf (Env.answering 404 notFoundBody) ConversionResponse.zero.USDBRL))] ∧
    (handleConversion (Env.answering 404 notFoundBody) emptyDatabase
      Http.ResponseWriter.fresh).2.rows.map (fun row => row.get "bid") =
      [some (.text "")] := by
  refine ⟨rfl, ?_, ?_, ?_, ?_⟩ <;> decide

/-- The response and the rows after a request: an error response and the rows
as before, or the 200 response and one more row, made from the decoded quote. -/
theorem handleConversion_outcome (env : Env) (db : Database) :
    (∃ e, (handleConversion env db Http.ResponseWriter.fresh).1 =
        writeError Http.ResponseWriter.fresh e ∧
      (handleConversion env db Http.ResponseWriter.fresh).2.rows = db.rows) ∨
    (∃ res body conversion,
      env.doRequest upstreamRequest = .ok res ∧
      res.Body = .ok body ∧
      Unmarshal body ConversionResponse.zero = (conversion, none) ∧
      (handleConversion env db Http.ResponseWriter.fresh).1 =
        ((Http.ResponseWriter.fresh.Set "Content-Type" "application/json").WriteHeader
          Http.StatusOK).Write body ∧
      (handleConversion env db Http.ResponseWriter.fresh).2.rows =
        db.rows ++ [mkRow insertColumns (insertArgs (conversionOf env conversion.USDBRL))] ∧
      constraintViolation db.rows
        (mkRow insertColumns (insertArgs (conversionOf env conversion.USDBRL))) = none) := by
  rcases handleConversion_split env db with ⟨e, he⟩ | ⟨res, body, conversion, h1, h2, h3, h4, h5⟩
  · exact Or.inl ⟨e, by rw [he], by rw [he]⟩
  · rw [handleConversion_decoded env db res body conversion h1 h2 h3 h4 h5]
    rcases insertConversion_cases env (db.call .opened) (conversionOf env conversion.USDBRL)
      with ⟨e, he⟩ | ⟨e, he⟩ | ⟨he, hcv⟩
    · exact Or.inl ⟨e, by rw [he], by rw [he]; rfl⟩
    · exact Or.inl ⟨e, by rw [he], by rw [he]; rfl⟩
    · exact Or.inr ⟨res, body, conversion, h2, h3, h4, by rw [he], by rw [he]; rfl, hcv⟩

/-- C4: when the upstream call fails (its deadline included), the body cannot be
read, or the body does not decode, the handler responds 500 and makes no call
on the database, so `conversions` is unchanged; the database is touched only
after a successful fetch and decode, and `insertConversion` runs at most once
per request. -/
theorem handleConversion_store_after_fetch (env : Env) (db : Database) :
    (FetchFailure env →
      (handleConversion env db Http.ResponseWriter.fresh).1.status = some 500 ∧
      (handleConversion env db Http.ResponseWriter.fresh).2 = db) ∧
    ((handleConversion env db Http.ResponseWriter.fresh).2 ≠ db → FetchSuccess env) ∧
    (handleConversion env db Http.ResponseWriter.fresh).2.calls.count .prepare ≤
      db.calls.count .prepare + 1 ∧
    (handleConversion env db Http.ResponseWriter.fresh).2.calls.count .exec ≤
      db.calls.count .exec + 1 ∧
    (handleConversion env db Http.ResponseWriter.fresh).2.rows.length ≤ db.rows.length + 1 := by
  refine ⟨?_, ?_, ?_, ?_, ?_⟩
  · intro hfail
    rcases handleConversion_split env db with ⟨e, he⟩ | ⟨res, body, conversion, _, h2, h3, h4, _⟩
    · rw [he, writeError_fresh]
      exact ⟨rfl, rfl⟩
    · exfalso
      rcases hfail with ⟨e, h⟩ | ⟨res1, e, h, hb⟩ | ⟨res1, body1, err, h, hb, hj⟩
      · rw [h2] at h
        exact Except.noConfusion h
      · rw [h2] at h
        cases h
        rw [h3] at hb
        exact Except.noConfusion hb
      · rw [h2] at h
        cases h
        rw [h3] at hb
        cases hb
        rw [h4] at hj
        exact Option.noConfusion hj
  · intro hne
    rcases handleConversion_split env db with ⟨e, he⟩ | ⟨res, body, conversion, _, h2, h3, h4, _⟩
    · exact absurd (by rw [he]) hne
    · exact ⟨res, body, h2, h3, by rw [h4]⟩
  · rcases handleConversion_calls env db with h | h | h
    · rw [h]
      exact Nat.le_succ _
    · rw [h, List.count_append]
      exact Nat.add_le_add_left (by decide) _
    · rw [h, List.count_append]
      exact Nat.add_le_add_left (by decide) _
  · rcases handleConversion_calls env db with h | h | h
    · rw [h]
      exact Nat.le_succ _
    · rw [h, List.count_append]
      exact Nat.add_le_add_left (by decide) _
    · rw [h, List.count_append]
      exact Nat.add_le_add_left (by decide) _
  · rcases handleConversion_outcome env db with ⟨e, _, h⟩ | ⟨_, _, _, _, _, _, _, h, _⟩
    · rw [h]
      exact Nat.le_succ _
    · rw [h, List.length_append]
      exact Nat.le_refl _

/-- C4 at a concrete request: the upstream needs 250ms and the call runs into
its deadline of 200ms; the response is 500 and the database is as before. -/
theorem handleConversion_store_after_fetch_witness :
    FetchFailure (Env.slowUpstream 250) ∧
    (handleConversion (Env.slowUpstream 250) emptyDatabase Http.ResponseWriter.fresh).1.status =
      some 500 ∧
    (handleConversion (Env.slowUpstream 250) emptyDatabase Http.ResponseWriter.fresh).2 =
      emptyDatabase :=
  have h : FetchFailure (Env.slowUpstream 250) := Or.inl ⟨_, rfl⟩
  ⟨h, (handleConversion_store_after_fetch (Env.slowUpstream 250) emptyDatabase).1 h⟩

/-- C5: a request that ends in a 200 response has appended exactly one row to
`conversions`; its id is the identifier `NewConversion` generated, no older
row has that id, and its eleven quote columns hold the fields of the same name
decoded from the `USDBRL` object of the upstream body. -/
theorem handleConversion_ok_inserts_one_row (env : Env) (db : Database)
    (res : Http.Response) (body : String)
    (hdo : env.doRequest upstreamRequest = .ok res)
    (hread : res.Body = .ok body)
    (h200 : (handleConversion env db Http.ResponseWriter.fresh).1.status = some 200) :
    ∃ row : Row,
      (handleConversion env db Http.ResponseWriter.fresh).2.rows = db.rows ++ [row] ∧
      row.get "id" =
        some (.text (conversionOf env (Unmarshal body ConversionResponse.zero).1.USDBRL).ID) ∧
      (conversionOf env (Unmarshal body ConversionResponse.zero).1.USDBRL).ID = env.uuid ∧
      (∀ old ∈ db.rows, old.get "id" ≠ some (.text env.uuid)) ∧
      row.get "code" = some (.text (Unmarshal body ConversionResponse.zero).1.USDBRL.Code) ∧
      row.get "codein" = some (.text (Unmarshal body ConversionResponse.zero).1.USDBRL.Codein) ∧
      row.get "name" = some (.text (Unmarshal body ConversionResponse.zero).1.USDBRL.Name) ∧
      row.get "high" = some (.text (Unmarshal body ConversionResponse.zero).1.USDBRL.High) ∧
      row.get "low" = some (.text (Unmarshal body ConversionResponse.zero).1.USDBRL.Low) ∧
      row.get "var_bid" = some (.text (Unmarshal body ConversionResponse.zero).1.USDBRL.VarBid) ∧
      row.get "pct_change" =
        some (.text (Unmarshal body ConversionResponse.zero).1.USDBRL.PctChange) ∧
      row.get "bid" = some (.text (Unmarshal body ConversionResponse.zero).1.USDBRL.Bid) ∧
      row.get "ask" = some (.text (Unmarshal body ConversionResponse.zero).1.USDBRL.Ask) ∧
      row.get "timestamp" =
        some (.text (Unmarshal body ConversionResponse.zero).1.USDBRL.Timestamp) ∧
      row.get "create_date" =
        some (.text (Unmarshal body ConversionResponse.zero).1.USDBRL.CreateDate) := by
  rcases handleConversion_outcome env db with
    ⟨e, he, _⟩ | ⟨res1, body1, conversion, h2, h3, h4, _, hrows, hcv⟩
  · rw [he, writeError_fresh] at h200
    simp at h200
  · rw [hdo] at h2
    cases h2
    rw [hread] at h3
    cases h3
    rw [h4]
    have hcols := mkRow_columns (conversionOf env conversion.USDBRL)
    have hid : (mkRow insertColumns (insertArgs (conversionOf env conversion.USDBRL))).get "id" =
        some (.text env.uuid) := hcols.1
    have huniq := constraintViolation_none_id db.rows _ hcv (by rw [hid]; rfl)
    rw [hid] at huniq
    exact ⟨_, hrows, hcols.1, rfl, huniq, hcols.2.1, hcols.2.2.1, hcols.2.2.2.1,
      hcols.2.2.2.2.1, hcols.2.2.2.2.2.1, hcols.2.2.2.2.2.2.1, hcols.2.2.2.2.2.2.2.1,
      hcols.2.2.2.2.2.2.2.2.1, hcols.2.2.2.2.2.2.2.2.2.1, hcols.2.2.2.2.2.2.2.2.2.2.1,
      hcols.2.2.2.2.2.2.2.2.2.2.2.1⟩

/-- C5 at a concrete request: the upstream serves `quoteBody`, whose bid is
"5.43"; the response is 200 and the one row of the table has bid "5.43". -/
theorem handleConversion_ok_inserts_one_row_witness :
    (handleConversion (Env.answering 200 quoteBody) emptyDatabase
      Http.ResponseWriter.fresh).1.status = some 200 ∧
    (Unmarshal quoteBody ConversionResponse.zero).1.USDBRL.Bid = "5.43" ∧
    ∃ row : Row,
      (handleConversion (Env.answering 200 quoteBody) emptyDatabase
        Http.ResponseWriter.fresh).2.rows = [row] ∧
      row.get "bid" = some (.text "5.43") :=
  have hbid : (Unmarshal quoteBody ConversionResponse.zero).1.USDBRL.Bid = "5.43" := by decide
  have h200 : (handleConversion (Env.answering 200 quoteBody) emptyDatabase
      Http.ResponseWriter.fresh).1.status = some 200 := by decide
  match handleConversion_ok_inserts_one_row (Env.answering 200 quoteBody) emptyDatabase
      { StatusCode := 200, Body := .ok quoteBody } quoteBody rfl rfl h200 with
  | ⟨row, hrows, _, _, _, _, _, _, _, _, _, _, hb, _⟩ =>
    ⟨h200, hbid, row, hrows, by rw [hb, hbid]⟩

/-- C6 as stated fails: the row inserted for a `Conversion` whose `DeletedAt`
is set has NULL in `deleted_at`. -/
theorem insertConversion_deleted_at_null :
    (conversionOf (Env.answering 200 quoteBody)
      (Unmarshal quoteBody ConversionResponse.zero).1.USDBRL).DeletedAt = 1700000002 ∧
    (insertConversion (Env.answering 200 quoteBody) emptyDatabase
      (conversionOf (Env.answering 200 quoteBody)
        (Unmarshal quoteBody ConversionResponse.zero).1.USDBRL)).1 = none ∧
    (insertConversion (Env.answering 200 quoteBody) emptyDatabase
      (conversionOf (Env.answering 200 quoteBody)
        (Unmarshal quoteBody ConversionResponse.zero).1.USDBRL)).2.rows.map
      (fun row => row.get "deleted_at") = [none] ∧
    (insertConversion (Env.answering 200 quoteBody) emptyDatabase
      (conversionOf (Env.answering 200 quoteBody)
        (Unmarshal quoteBody ConversionResponse.zero).1.USDBRL)).2.rows.map
      (fun row => row.get "deleted_at") ≠ [some (.datetime 1700000002)] := by
  refine ⟨rfl, ?_, ?_, ?_⟩ <;> decide

/-- C6, amended: every row `insertConversion` inserts has `created_at` and
`updated_at` holding the `CreatedAt` and `UpdatedAt` of the `Conversion`, and
NULL in `deleted_at`, which is not among the columns of the statement;
`NewConversion` takes all three instants from the clock, `DeletedAt` too. -/
theorem insertConversion_row_timestamps (env : Env) (db : Database) (c : Conversion)
    (h : (insertConversion env db c).1 = none) :
    (∃ row : Row,
      (insertConversion env db c).2.rows = db.rows ++ [row] ∧
      row.get "created_at" = some (.datetime c.CreatedAt) ∧
      row.get "updated_at" = some (.datetime c.UpdatedAt) ∧
      row.get "deleted_at" = none) ∧
    "deleted_at" ∉ insertColumns ∧
    ∀ q : Quote,
      (conversionOf env q).CreatedAt = env.now 0 ∧
      (conversionOf env q).UpdatedAt = env.now 1 ∧
      (conversionOf env q).DeletedAt = env.now 2 := by
  refine ⟨?_, by decide, fun q => ⟨rfl, rfl, rfl⟩⟩
  have hcols := mkRow_columns c
  rcases insertConversion_cases env db c with ⟨e, he⟩ | ⟨e, he⟩ | ⟨he, _⟩
  · rw [he] at h
    exact Option.noConfusion h
  · rw [he] at h
    exact Option.noConfusion h
  · rw [he]
    exact ⟨_, rfl, hcols.2.2.2.2.2.2.2.2.2.2.2.2.1, hcols.2.2.2.2.2.2.2.2.2.2.2.2.2.1,
      hcols.2.2.2.2.2.2.2.2.2.2.2.2.2.2⟩

/-- C6, amended, at a concrete insert into the empty table. -/
theorem insertConversion_row_timestamps_witness :
    (insertConversion (Env.answering 200 quoteBody) emptyDatabase
      (conversionOf (Env.answering 200 quoteBody) ConversionResponse.zero.USDBRL)).1 = none ∧
    ∃ row : Row,
      (insertConversion (Env.answering 200 quoteBody) emptyDatabase
        (conversionOf (Env.answering 200 quoteBody) ConversionResponse.zero.USDBRL)).2.rows =
        emptyDatabase.rows ++ [row] ∧
      row.get "created_at" = some (.datetime 1700000000) ∧
      row.get "updated_at" = some (.datetime 1700000001) ∧
      row.get "deleted_at" = none :=
  ⟨by decide,
   (insertConversion_row_timestamps (Env.answering 200 quoteBody) emptyDatabase
     (conversionOf (Env.answering 200 quoteBody) ConversionResponse.zero.USDBRL)
     (by decide)).1⟩

end Server

/-! ## Properties of the client -/

namespace Client

theorem utf8ByteSize_append (s t : String) :
    (s ++ t).utf8ByteSize = s.utf8ByteSize + t.utf8ByteSize := by
  cases s
  cases t
  simp only [String.utf8ByteSize, String.append]
  exact String.utf8Len_append _ _

theorem label_size (bid : String) : ("Dólar: " ++ bid).utf8ByteSize = 8 + bid.utf8ByteSize := by
  rw [utf8ByteSize_append]
  rfl

/-- The run once the server has answered 200 with a body that could be read. -/
theorem main_answered (env : Env) (fs : FileSystem) (res : Http.Response) (body : String)
    (hreq : env.newRequest serverRequest = none)
    (hdo : env.doRequest serverRequest = .ok res)
    (hstatus : res.StatusCode = 200)
    (hread : res.Body = .ok body)
    (hcreate : env.create "cotacao.txt" = none)
    (hwrite : env.writeFailure "cotacao.txt"
      ("Dólar: " ++ (Unmarshal body ConversionResponse.zero).1.USDBRL.Bid) = none) :
    (main env fs).exit = .returned ∧
    (main env fs).stdout =
      successLine ("Dólar: " ++ (Unmarshal body ConversionResponse.zero).1.USDBRL.Bid).utf8ByteSize ∧
    (main env fs).fs.files "cotacao.txt" =
      some ("Dólar: " ++ (Unmarshal body ConversionResponse.zero).1.USDBRL.Bid) ∧
    (main env fs).fs.calls = fs.calls ++
      [.create "cotacao.txt",
       .writeString "cotacao.txt"
         ("Dólar: " ++ (Unmarshal body ConversionResponse.zero).1.USDBRL.Bid),
       .close "cotacao.txt"] := by
  simp [main, hreq, hdo, hstatus, hread, Create, hcreate, WriteString, hwrite, Http.StatusOK,
    FileSystem.call, FileSystem.put, successLine]

/-- C7: for every bid decoded from a 200 response, when creating the file and
the write succeed, `cotacao.txt` holds exactly "Dólar: " followed by the bid,
whatever it held before, and the count reported is the byte length of that
string in UTF-8, which is 8 plus the byte length of the bid. -/
theorem main_writes_label_and_bid (env : Env) (fs : FileSystem) (res : Http.Response)
    (body bid : String)
    (hreq : env.newRequest serverRequest = none)
    (hdo : env.doRequest serverRequest = .ok res)
    (hstatus : res.StatusCode = 200)
    (hread : res.Body = .ok body)
    (hbid : (Unmarshal body ConversionResponse.zero).1.USDBRL.Bid = bid)
    (hcreate : env.create "cotacao.txt" = none)
    (hwrite : env.writeFailure "cotacao.txt" ("Dólar: " ++ bid) = none) :
    (main env fs).exit = .returned ∧
    (main env fs).fs.files "cotacao.txt" = some ("Dólar: " ++ bid) ∧
    (main env fs).stdout = successLine ("Dólar: " ++ bid).utf8ByteSize ∧
    ("Dólar: " ++ bid).utf8ByteSize = 8 + bid.utf8ByteSize := by
  subst hbid
  have h := main_answered env fs res body hreq hdo hstatus hread hcreate hwrite
  exact ⟨h.1, h.2.2.1, h.2.1, label_size _⟩

/-- C7 at a concrete run: the server answers 200 with `bidBody`, and
`cotacao.txt` holds an older quote before the run. -/
theorem main_writes_label_and_bid_witness :
    (Unmarshal bidBody ConversionResponse.zero).1.USDBRL.Bid = "5.43" ∧
    oldDirectory.files "cotacao.txt" = some "Dólar: 4.99" ∧
    (main (Env.answering 200 bidBody) oldDirectory).exit = .returned ∧
    (main (Env.answering 200 bidBody) oldDirectory).fs.files "cotacao.txt" =
      some ("Dólar: " ++ "5.43") ∧
    (main (Env.answering 200 bidBody) oldDirectory).stdout =
      successLine ("Dólar: " ++ "5.43").utf8ByteSize ∧
    ("Dólar: " ++ "5.43").utf8ByteSize = 8 + "5.43".utf8ByteSize :=
  ⟨by decide, rfl,
   main_writes_label_and_bid (Env.answering 200 bidBody) oldDirectory
     { StatusCode := 200, Body := .ok bidBody } bidBody "5.43" rfl rfl rfl rfl (by decide) rfl
     rfl⟩

/-- C8 as stated fails: for the body of the scenario the client writes
"Dólar: 5.43", which is 12 bytes, and reports 12, not 13. -/
theorem main_scenario_reports_twelve :
    bidBody.data = [Char.ofNat 123, Char.ofNat 34, 'U', 'S', 'D', 'B', 'R', 'L', Char.ofNat 34,
      ':', Char.ofNat 123, Char.ofNat 34, 'b', 'i', 'd', Char.ofNat 34, ':', Char.ofNat 34,
      '5', '.', '4', '3', Char.ofNat 34, Char.ofNat 125, Char.ofNat 125] ∧
    (main (Env.answering 200 bidBody) oldDirectory).fs.files "cotacao.txt" =
      some "Dólar: 5.43" ∧
    "Dólar: 5.43".utf8ByteSize = 12 ∧
    (main (Env.answering 200 bidBody) oldDirectory).stdout =
      "Arquivo criado com sucesso! Tamanho: 12 bytes\n" ∧
    (main (Env.answering 200 bidBody) oldDirectory).stdout ≠
      "Arquivo criado com sucesso! Tamanho: 13 bytes\n" := by
  refine ⟨?_, ?_, ?_, ?_, ?_⟩ <;> decide

/-- C8, amended: for the response body `bidBody` with status 200, when creating
the file and the write succeed, the client writes `cotacao.txt` containing
"Dólar: 5.43" and reports 12 bytes written. -/
theorem main_scenario (env : Env) (fs : FileSystem) (res : Http.Response)
    (hreq : env.newRequest serverRequest = none)
    (hdo : env.doRequest serverRequest = .ok res)
    (hstatus : res.StatusCode = 200)
    (hread : res.Body = .ok bidBody)
    (hcreate : env.create "cotacao.txt" = none)
    (hwrite : env.writeFailure "cotacao.txt" "Dólar: 5.43" = none) :
    (main env fs).exit = .returned ∧
    (main env fs).fs.files "cotacao.txt" = some "Dólar: 5.43" ∧
    (main env fs).stdout = "Arquivo criado com sucesso! Tamanho: 12 bytes\n" := by
  have hbid : (Unmarshal bidBody ConversionResponse.zero).1.USDBRL.Bid = "5.43" := by decide
  have hw : env.writeFailure "cotacao.txt"
      ("Dólar: " ++ (Unmarshal bidBody ConversionResponse.zero).1.USDBRL.Bid) = none := by
    rw [hbid]
    exact hwrite
  have h := main_answered env fs res bidBody hreq hdo hstatus hread hcreate hw
  rw [hbid] at h
  refine ⟨h.1, h.2.2.1, ?_⟩
  rw [h.2.1]
  decide

/-- C8, amended, at a run that starts in an empty directory. -/
theorem main_scenario_witness :
    (main (Env.answering 200 bidBody) { files := fun _ => none, calls := [] }).exit =
      .returned ∧
    (main (Env.answering 200 bidBody) { files := fun _ => none, calls := [] }).fs.files
      "cotacao.txt" = some "Dólar: 5.43" ∧
    (main (Env.answering 200 bidBody) { files := fun _ => none, calls := [] }).stdout =
      "Arquivo criado com sucesso! Tamanho: 12 bytes\n" :=
  main_scenario (Env.answering 200 bidBody) { files := fun _ => none, calls := [] }
    { StatusCode := 200, Body := .ok bidBody } rfl rfl rfl rfl rfl rfl

/-- C9: when the request to the server fails (its 300ms deadline included), the
server answers with a status other than 200, or the body cannot be read, the
client ends in `log.Fatal` without any call on the file system: `os.Create`
is not reached, and `cotacao.txt` is neither created nor truncated nor
written. -/
theorem main_request_failure (env : Env) (fs : FileSystem) (h : RequestFailure env) :
    (∃ msg, (main env fs).exit = .fatal msg) ∧
    (main env fs).fs = fs ∧
    (main env fs).fs.calls = fs.calls ∧
    (main env fs).fs.files "cotacao.txt" = fs.files "cotacao.txt" ∧
    (main env fs).stdout = "" := by
  cases hreq : env.newRequest serverRequest with
  | some e =>
    have hm : main env fs = ⟨.fatal e, "", fs⟩ := by simp only [main, hreq]
    rw [hm]
    exact ⟨⟨e, rfl⟩, rfl, rfl, rfl, rfl⟩
  | none =>
    cases hdo : env.doRequest serverRequest with
    | error e =>
      have hm : main env fs = ⟨.fatal e, "", fs⟩ := by simp only [main, hreq, hdo]
      rw [hm]
      exact ⟨⟨e, rfl⟩, rfl, rfl, rfl, rfl⟩
    | ok res =>
      by_cases hs : res.StatusCode = 200
      · cases hread : res.Body with
        | error e =>
          have hm : main env fs = ⟨.fatal e, "", fs⟩ := by
            simp only [main, hreq, hdo, hs, hread, Http.StatusOK, ne_eq, not_true_eq_false,
              if_false]
          rw [hm]
          exact ⟨⟨e, rfl⟩, rfl, rfl, rfl, rfl⟩
        | ok body =>
          exfalso
          rcases h with ⟨e, h⟩ | ⟨res1, h, hne⟩ | ⟨res1, e, h, hb⟩
          · rw [hdo] at h
            exact Except.noConfusion h
          · rw [hdo] at h
            cases h
            exact hne hs
          · rw [hdo] at h
            cases h
            rw [hread] at hb
            exact Except.noConfusion hb
      · have hm : main env fs = ⟨.fatal "Request failed", "", fs⟩ := by
          simp only [main, hreq, hdo, Http.StatusOK, ne_eq, hs, not_false_eq_true, if_true]
        rw [hm]
        exact ⟨⟨_, rfl⟩, rfl, rfl, rfl, rfl⟩

/-- C9 at two concrete runs: the server needs 350ms and the request runs into
its deadline of 300ms, and the server answers 500; the older `cotacao.txt` is
left as it was. -/
theorem main_request_failure_witness :
    RequestFailure (Env.slowServer 350) ∧
    RequestFailure (Env.answering 500 "context deadline exceeded") ∧
    (main (Env.slowServer 350) oldDirectory).fs.files "cotacao.txt" = some "Dólar: 4.99" ∧
    (main (Env.slowServer 350) oldDirectory).fs.calls = [] ∧
    (main (Env.answering 500 "context deadline exceeded") oldDirectory).exit =
      .fatal "Request failed" ∧
    (main (Env.answering 500 "context deadline exceeded") oldDirectory).fs.calls = [] :=
  have h1 : RequestFailure (Env.slowServer 350) := Or.inl ⟨_, rfl⟩
  have h2 : RequestFailure (Env.answering 500 "context deadline exceeded") :=
    Or.inr (Or.inl ⟨_, rfl, by decide⟩)
  ⟨h1, h2, (main_request_failure (Env.slowServer 350) oldDirectory h1).2.2.2.1,
   (main_request_failure (Env.slowServer 350) oldDirectory h1).2.2.1,
   rfl,
   (main_request_failure (Env.answering 500 "context deadline exceeded") oldDirectory h2).2.2.1⟩

/-- C10: the client does not fail on a decode error. For every 200 response
whose body could be read, when creating the file and the write succeed, the
run returns from `main` having written "Dólar: " followed by whatever bid
`json.Unmarshal` left in the struct, whether or not it returned an error; when
the body is not valid JSON, or is valid JSON in which no string was decoded
into the bid, the file holds exactly "Dólar: " and the count reported is 8. -/
theorem main_ignores_decode_error (env : Env) (fs : FileSystem) (res : Http.Response)
    (body : String)
    (hreq : env.newRequest serverRequest = none)
    (hdo : env.doRequest serverRequest = .ok res)
    (hstatus : res.StatusCode = 200)
    (hread : res.Body = .ok body)
    (hcreate : env.create "cotacao.txt" = none)
    (hwrite : ∀ s, env.writeFailure "cotacao.txt" s = none) :
    (main env fs).exit = .returned ∧
    (main env fs).fs.files "cotacao.txt" =
      some ("Dólar: " ++ (Unmarshal body ConversionResponse.zero).1.USDBRL.Bid) ∧
    (Json.checkValid body = none →
      (Unmarshal body ConversionResponse.zero).2 = some .syntaxError ∧
      (main env fs).fs.files "cotacao.txt" = some "Dólar: " ∧
      (main env fs).stdout = "Arquivo criado com sucesso! Tamanho: 8 bytes\n") ∧
    (∀ events, Json.checkValid body = some events →
      (Json.decode layout events).vals.lookup "bid" = none →
      (main env fs).fs.files "cotacao.txt" = some "Dólar: " ∧
      (main env fs).stdout = "Arquivo criado com sucesso! Tamanho: 8 bytes\n") := by
  have h := main_answered env fs res body hreq hdo hstatus hread hcreate (hwrite _)
  have hempty : (Unmarshal body ConversionResponse.zero).1.USDBRL.Bid = "" →
      (main env fs).fs.files "cotacao.txt" = some "Dólar: " ∧
      (main env fs).stdout = "Arquivo criado com sucesso! Tamanho: 8 bytes\n" := by
    intro hb
    rw [hb] at h
    refine ⟨h.2.2.1, ?_⟩
    rw [h.2.1]
    decide
  refine ⟨h.1, h.2.2.1, ?_, ?_⟩
  · intro hinvalid
    have hU : Unmarshal body ConversionResponse.zero =
        (ConversionResponse.zero, some .syntaxError) := by
      simp only [Unmarshal, hinvalid]
    refine ⟨by rw [hU], hempty (by rw [hU]; rfl)⟩
  · intro events hvalid hnone
    apply hempty
    simp only [Unmarshal, hvalid, Json.DecodeState.get, hnone]
    rfl

/-- C10 at two concrete runs: a body that is not JSON, and a JSON body whose
bid is a number (a type error of `json.Unmarshal`). -/
theorem main_ignores_decode_error_witness :
    (Unmarshal "<html>502 Bad Gateway</html>" ConversionResponse.zero).2 = some .syntaxError ∧
    (main (Env.answering 200 "<html>502 Bad Gateway</html>") oldDirectory).exit = .returned ∧
    (main (Env.answering 200 "<html>502 Bad Gateway</html>") oldDirectory).fs.files
      "cotacao.txt" = some "Dólar: " ∧
    (main (Env.answering 200 "<html>502 Bad Gateway</html>") oldDirectory).stdout =
      "Arquivo criado com sucesso! Tamanho: 8 bytes\n" ∧
    (Unmarshal "\x7b\"USDBRL\":\x7b\"bid\":5.43\x7d\x7d" ConversionResponse.zero).2 =
      some (.unmarshalTypeError "number" "USDBRL.bid") ∧
    (main (Env.answering 200 "\x7b\"USDBRL\":\x7b\"bid\":5.43\x7d\x7d") oldDirectory).exit =
      .returned ∧
    (main (Env.answering 200 "\x7b\"USDBRL\":\x7b\"bid\":5.43\x7d\x7d") oldDirectory).fs.files
      "cotacao.txt" = some "Dólar: " :=
  have h1 := main_ignores_decode_error (Env.answering 200 "<html>502 Bad Gateway</html>")
    oldDirectory { StatusCode := 200, Body := .ok "<html>502 Bad Gateway</html>" }
    "<html>502 Bad Gateway</html>" rfl rfl rfl rfl rfl (fun _ => rfl)
  have h2 := main_ignores_decode_error
    (Env.answering 200 "\x7b\"USDBRL\":\x7b\"bid\":5.43\x7d\x7d")
    oldDirectory { StatusCode := 200, Body := .ok "\x7b\"USDBRL\":\x7b\"bid\":5.43\x7d\x7d" }
    "\x7b\"USDBRL\":\x7b\"bid\":5.43\x7d\x7d" rfl rfl rfl rfl rfl (fun _ => rfl)
  ⟨(h1.2.2.1 (by decide)).1, h1.1, (h1.2.2.1 (by decide)).2.1, (h1.2.2.1 (by decide)).2.2,
   by decide, h2.1, (h2.2.2.2 _ rfl (by decide)).1⟩

end Client
